import Mathlib

/-
Verification of the alt-text processing core of the
Brown-University-Library/alt_text_project repository.

The development shallowly embeds the Python core in Lean:

- pure helpers (`parse_openrouter_response`, the model-fallback loop in
  `call_openrouter_with_model_order`, path building in `image_helpers`, the
  thumbnail geometry of `thumbnail_helpers`) become Lean functions;
- the Django records `ImageDocument` / `OpenRouterAltText` become structures
  (`Doc` / `Attempt`), the database an explicit `AppState`, and each stateful
  operation (the sync orchestrator in `sync_processing_helpers`, the batch
  script `process_openrouter_summaries`, the upload view) a state-passing
  function;
- the outbound HTTP call of `call_openrouter` is abstracted as an oracle
  `String → Except CallError OpenRouterResponse` (model id to result), the
  two raising behaviours of `httpx` (timeout vs. non-2xx/transport) as the
  `CallError` constructors;
- timestamps are abstract ticks (`Nat`); `django.utils.timezone.make_naive`
  of an epoch value is injective bookkeeping, modelled by `make_naive_from_epoch`.
-/

/-- The shared status vocabulary of `ImageDocument.processing_status` and
`OpenRouterAltText.status` (models.py). -/
inductive Status where
  | pending
  | processing
  | completed
  | failed
  deriving DecidableEq, Repr

/-- The `usage` object of an OpenRouter response
(`{prompt_tokens, completion_tokens, total_tokens}`), each field optional. -/
structure Usage where
  prompt_tokens : Option Int
  completion_tokens : Option Int
  total_tokens : Option Int
  deriving DecidableEq, Repr

/-- One entry of a list-valued `message.content`; in the source an item is a
dict that may carry `type` and `text` keys (`item.get('text', '')`). -/
structure ContentItem where
  typ : String
  text : Option String
  deriving DecidableEq, Repr

/-- `message.content` of a choice: either a plain string or a list of parts
(the two shapes `parse_openrouter_response` distinguishes with
`isinstance(content, list)`). -/
inductive MessageContent where
  | str (s : String)
  | parts (items : List ContentItem)
  deriving DecidableEq, Repr

/-- The `message` object of a choice; `content` may be absent
(`message.get('content', '')`). -/
structure Message where
  content : Option MessageContent
  deriving DecidableEq, Repr

/-- One element of `choices`; `message` and `finish_reason` may be absent. -/
structure Choice where
  message : Option Message
  finish_reason : Option String
  deriving DecidableEq, Repr

/-- A well-formed-but-possibly-sparse OpenRouter response body: every
top-level field the parser reads may be absent (`response_json.get(...)`). -/
structure OpenRouterResponse where
  id : Option String
  provider : Option String
  model : Option String
  choices : Option (List Choice)
  usage : Option Usage
  created : Option Nat
  deriving DecidableEq, Repr

/-- The empty dict `{}`: the initial value of `response_json` in
`call_openrouter_with_model_order` and the sparsest possible response. -/
def empty_response : OpenRouterResponse :=
  { id := none, provider := none, model := none, choices := none,
    usage := none, created := none }

/-- The dict returned by `parse_openrouter_response` (openrouter_helpers.py). -/
structure ParsedFields where
  alt_text : String
  openrouter_response_id : String
  provider : String
  model : String
  finish_reason : String
  openrouter_created_at : Option Nat
  prompt_tokens : Option Int
  completion_tokens : Option Int
  total_tokens : Option Int
  deriving DecidableEq, Repr

/-- `django_timezone.make_naive(datetime.fromtimestamp(created, tz=utc))`:
timestamps are abstract ticks, so the conversion is the identity on the tick. -/
def make_naive_from_epoch (created : Nat) : Nat := created

/-- `parse_openrouter_response` (openrouter_helpers.py lines 147-190):
extracts alt text from the first choice (concatenating `type == 'text'` parts
with newlines, dropping empty ones, trimming), finish reason, response
id/provider/model, token usage, and the upstream creation timestamp.  Every
read uses a `.get` default, so the function is total; note that Python's
`if created:` treats an epoch of `0` as absent. -/
def parse_openrouter_response (response_json : OpenRouterResponse) : ParsedFields :=
  let choices := response_json.choices.getD []
  let alt_and_finish : String × String :=
    match choices with
    | [] => ("", "")
    | choice :: _ =>
        let message := choice.message.getD { content := none }
        let content := message.content.getD (MessageContent.str "")
        let alt :=
          match content with
          | MessageContent.parts items =>
              let content_text_items :=
                (items.filter (fun item => item.typ = "text")).map
                  (fun item => item.text.getD "")
              (String.intercalate "\n"
                (content_text_items.filter (fun text => text ≠ ""))).trim
          | MessageContent.str s => s.trim
        (alt, choice.finish_reason.getD "")
  let usage := response_json.usage.getD
    { prompt_tokens := none, completion_tokens := none, total_tokens := none }
  { alt_text := alt_and_finish.1
    openrouter_response_id := response_json.id.getD ""
    provider := response_json.provider.getD ""
    model := response_json.model.getD ""
    finish_reason := alt_and_finish.2
    openrouter_created_at :=
      match response_json.created with
      | some created => if created ≠ 0 then some (make_naive_from_epoch created) else none
      | none => none
    prompt_tokens := usage.prompt_tokens
    completion_tokens := usage.completion_tokens
    total_tokens := usage.total_tokens }

/-- The two distinguishable failure modes of one `call_openrouter` attempt:
`httpx.TimeoutException` vs. any other upstream error (non-2xx status or
transport failure); each carries its `str(exc)` message. -/
inductive CallError where
  | timeout (msg : String)
  | upstream (msg : String)
  deriving DecidableEq, Repr

/-- `str(exc)` of a call error. -/
def CallError.message : CallError → String
  | CallError.timeout msg => msg
  | CallError.upstream msg => msg

/-- The `for model in model_order` loop of `call_openrouter_with_model_order`:
threads the mutable `last_exception` and `response_json` locals; a successful
call clears `last_exception` and breaks. -/
def call_loop (oracle : String → Except CallError OpenRouterResponse) :
    Option CallError → OpenRouterResponse → List String →
    Option CallError × OpenRouterResponse
  | last_exception, response_json, [] => (last_exception, response_json)
  | _, response_json, model :: rest =>
      match oracle model with
      | Except.ok r => (none, r)
      | Except.error e => call_loop oracle (some e) response_json rest

/-- `call_openrouter_with_model_order` (openrouter_helpers.py lines 115-142):
tries each model id in order via the oracle; after the loop re-raises
`last_exception` if set, else returns `response_json` (initialised to `{}`). -/
def call_openrouter_with_model_order
    (oracle : String → Except CallError OpenRouterResponse)
    (model_order : List String) : Except CallError OpenRouterResponse :=
  match call_loop oracle none empty_response model_order with
  | (some e, _) => Except.error e
  | (none, response_json) => Except.ok response_json

/-- An `ImageDocument` row (models.py), restricted to the fields the core
reads and writes. -/
structure Doc where
  pk : Nat
  file_checksum : String
  file_extension : String
  mime_type : String
  uploaded_at : Nat
  processing_status : Status
  processing_error : Option String
  processing_started_at : Option Nat
  deriving DecidableEq, Repr

/-- An `OpenRouterAltText` row (models.py).  Fields declared `TextField` /
`CharField` without `null=True` are `String` (never SQL-null); nullable
fields are `Option`. -/
structure Attempt where
  doc_pk : Nat
  raw_response : Option OpenRouterResponse
  alt_text : String
  prompt : String
  openrouter_response_id : String
  provider : String
  model : String
  finish_reason : String
  status : Status
  error : Option String
  requested_at : Option Nat
  completed_at : Option Nat
  openrouter_created_at : Option Nat
  prompt_tokens : Option Int
  completion_tokens : Option Int
  total_tokens : Option Int
  deriving DecidableEq, Repr

/-- A fresh `OpenRouterAltText` row with the model-level field defaults. -/
def empty_attempt : Attempt :=
  { doc_pk := 0, raw_response := none, alt_text := "", prompt := "",
    openrouter_response_id := "", provider := "", model := "",
    finish_reason := "", status := Status.pending, error := none,
    requested_at := none, completed_at := none, openrouter_created_at := none,
    prompt_tokens := none, completion_tokens := none, total_tokens := none }

/-- The identical get-or-create-and-reset sequence at the top of both
`attempt_openrouter_sync` and `process_single_alt_text`:
`get_or_create(defaults={'status': 'processing', 'requested_at': now})`, and
for an existing row an in-place reset of `status`, `requested_at`, `error`. -/
def get_or_create_processing (doc_pk : Nat) (now : Nat) :
    Option Attempt → Attempt
  | none =>
      { empty_attempt with
        doc_pk := doc_pk
        status := Status.processing
        requested_at := some now }
  | some a =>
      { a with
        status := Status.processing
        requested_at := some now
        error := none }

/-- `persist_openrouter_alt_text` (openrouter_helpers.py lines 195-214):
overwrites content/metadata/usage fields from the parsed response, sets
`status='completed'`, `completed_at=now`, clears `error`. -/
def persist_openrouter_alt_text (alt_text_record : Attempt)
    (response_json : OpenRouterResponse) (parsed : ParsedFields)
    (now : Nat) : Attempt :=
  { alt_text_record with
    raw_response := some response_json
    alt_text := parsed.alt_text
    openrouter_response_id := parsed.openrouter_response_id
    provider := parsed.provider
    model := parsed.model
    finish_reason := parsed.finish_reason
    openrouter_created_at := parsed.openrouter_created_at
    prompt_tokens := parsed.prompt_tokens
    completion_tokens := parsed.completion_tokens
    total_tokens := parsed.total_tokens
    status := Status.completed
    completed_at := some now
    error := none }

/-- The configuration surface and clock the processing paths read:
`OPENROUTER_API_KEY`, `OPENROUTER_MODEL_ORDER`, the prompt template loaded by
`build_prompt()`, and the current time. -/
structure SyncEnv where
  api_key : String
  model_order : List String
  prompt_text : String
  now : Nat
  deriving Repr

/-- The exact error message written on the sync-timeout path
(sync_processing_helpers.py line 97). -/
def sync_timeout_message : String :=
  "Sync attempt timed out; will retry in background."

/-- `attempt_openrouter_sync` (sync_processing_helpers.py lines 37-112).
Returns the updated document, the attempt row after the call (unchanged input
row when the attempt is skipped), and the function's boolean result.  The
outbound network call is the oracle threaded through
`call_openrouter_with_model_order`; a raised `httpx.TimeoutException`
(however worded) takes the timeout branch, any other exception the generic
failure branch.  Failures of the in-`try` local steps (reading the image
bytes for the data URL) reach the same generic handler and are modelled
inside the upstream error case. -/
def attempt_openrouter_sync (env : SyncEnv)
    (oracle : String → Except CallError OpenRouterResponse)
    (doc : Doc) (att : Option Attempt) : Doc × Option Attempt × Bool :=
  if env.api_key = "" ∨ env.model_order = [] then
    (doc, att, false)
  else
    let rec0 := get_or_create_processing doc.pk env.now att
    let rec1 := { rec0 with prompt := env.prompt_text }
    match call_openrouter_with_model_order oracle env.model_order with
    | Except.ok response_json =>
        let parsed := parse_openrouter_response response_json
        let rec2 := persist_openrouter_alt_text rec1 response_json parsed env.now
        ({ doc with processing_status := Status.completed, processing_error := none },
         some rec2, true)
    | Except.error (CallError.timeout _) =>
        ({ doc with processing_status := Status.pending, processing_started_at := none },
         some { rec1 with status := Status.pending, error := some sync_timeout_message },
         false)
    | Except.error (CallError.upstream msg) =>
        ({ doc with processing_status := Status.failed, processing_error := some msg },
         some { rec1 with status := Status.failed, error := some msg },
         false)

/-- `attempt_synchronous_processing` (sync_processing_helpers.py lines 23-34):
marks the document `processing` with `processing_started_at=now` and clears
`processing_error` before delegating to `attempt_openrouter_sync`. -/
def attempt_synchronous_processing (env : SyncEnv)
    (oracle : String → Except CallError OpenRouterResponse)
    (doc : Doc) (att : Option Attempt) : Doc × Option Attempt × Bool :=
  let doc1 := { doc with
                processing_status := Status.processing
                processing_error := none
                processing_started_at := some env.now }
  attempt_openrouter_sync env oracle doc1 att

/-- `process_single_alt_text` (process_openrouter_summaries.py lines 87-154):
the batch analogue of the sync attempt.  The stored-file existence check
precedes the prompt write; a missing file raises `FileNotFoundError`, which
the generic handler turns into a failed attempt like any other error
(including timeouts: the batch path has no timeout special case). -/
def process_single_alt_text (env : SyncEnv)
    (oracle : String → Except CallError OpenRouterResponse)
    (file_found : Bool) (image_path : String)
    (doc : Doc) (att : Option Attempt) : Doc × Attempt × Bool :=
  let rec0 := get_or_create_processing doc.pk env.now att
  if file_found then
    let rec1 := { rec0 with prompt := env.prompt_text }
    match call_openrouter_with_model_order oracle env.model_order with
    | Except.ok response_json =>
        let parsed := parse_openrouter_response response_json
        let rec2 := persist_openrouter_alt_text rec1 response_json parsed env.now
        ({ doc with processing_status := Status.completed, processing_error := none },
         rec2, true)
    | Except.error e =>
        ({ doc with
           processing_status := Status.failed
           processing_error := some e.message },
         { rec1 with status := Status.failed, error := some e.message },
         false)
  else
    let msg := "Image file not found: " ++ image_path
    ({ doc with processing_status := Status.failed, processing_error := some msg },
     { rec0 with status := Status.failed, error := some msg },
     false)

/-- The database visible to the core: the `ImageDocument` table and the
`OpenRouterAltText` table (one-to-one via `doc_pk`). -/
structure AppState where
  docs : List Doc
  attempts : List Attempt
  deriving DecidableEq, Repr

/-- `ImageDocument.objects.filter(file_checksum=checksum).first()`. -/
def find_doc_by_checksum (st : AppState) (checksum : String) : Option Doc :=
  st.docs.find? (fun d => d.file_checksum == checksum)

/-- Lookup of a document row by primary key. -/
def find_doc_by_pk (st : AppState) (pk : Nat) : Option Doc :=
  st.docs.find? (fun d => d.pk == pk)

/-- The one-to-one reverse accessor `doc.openrouter_alt_text` (None when the
row does not exist). -/
def find_attempt (st : AppState) (pk : Nat) : Option Attempt :=
  st.attempts.find? (fun a => a.doc_pk == pk)

/-- `processing_status in ('pending', 'processing')`: the status filter both
batch queries share. -/
def status_eligible (d : Doc) : Bool :=
  decide (d.processing_status = Status.pending) ||
    decide (d.processing_status = Status.processing)

/-- `.exclude(openrouter_alt_text__isnull=False)`: the document has no
alt-text attempt row. -/
def no_attempt (st : AppState) (d : Doc) : Bool :=
  (find_attempt st d.pk).isNone

/-- `Q(openrouter_alt_text__status='pending') |
Q(openrouter_alt_text__status='failed')`: an existing attempt in a retryable
status. -/
def retryable_attempt (st : AppState) (d : Doc) : Bool :=
  match find_attempt st d.pk with
  | some a => decide (a.status = Status.pending) || decide (a.status = Status.failed)
  | none => false

/-- The selection predicate of the batch scanner as the spec words it:
status pending/processing and either no attempt or a pending/failed one. -/
def eligible_for_retry (st : AppState) (d : Doc) : Bool :=
  status_eligible d && (no_attempt st d || retryable_attempt st d)

/-- Insertion step of the `order_by('uploaded_at')` model: keeps earlier rows
with an equal-or-smaller timestamp in front (a stable ascending sort). -/
def insert_by_uploaded_at (d : Doc) : List Doc → List Doc
  | [] => [d]
  | x :: xs =>
      if x.uploaded_at ≤ d.uploaded_at then x :: insert_by_uploaded_at d xs
      else d :: x :: xs

/-- `order_by('uploaded_at')`: ascending stable sort on the upload time. -/
def order_by_uploaded_at : List Doc → List Doc
  | [] => []
  | d :: ds => insert_by_uploaded_at d (order_by_uploaded_at ds)

/-- The first queryset of `find_pending_alt_text`: eligible-status documents
without an attempt row, oldest upload first, capped at `batch_size`. -/
def docs_without_alt_text (st : AppState) (batch_size : Nat) : List Doc :=
  (order_by_uploaded_at
    (st.docs.filter (fun d => status_eligible d && no_attempt st d))).take batch_size

/-- The second queryset of `find_pending_alt_text`: eligible-status documents
whose attempt is pending or failed, oldest upload first, capped at
`batch_size`. -/
def docs_with_pending_alt_text (st : AppState) (batch_size : Nat) : List Doc :=
  (order_by_uploaded_at
    (st.docs.filter (fun d => status_eligible d && retryable_attempt st d))).take batch_size

/-- The merge loop of `find_pending_alt_text` (lines 70-77): walks the
concatenated querysets, skipping already-seen primary keys and stopping
additions once `batch_size` rows are collected. -/
def dedupe_cap (batch_size : Nat) (seen : List Nat) (count : Nat) :
    List Doc → List Doc
  | [] => []
  | d :: ds =>
      if d.pk ∉ seen ∧ count < batch_size then
        d :: dedupe_cap batch_size (d.pk :: seen) (count + 1) ds
      else
        dedupe_cap batch_size seen count ds

/-- `find_pending_alt_text` (process_openrouter_summaries.py lines 51-77). -/
def find_pending_alt_text (st : AppState) (batch_size : Nat) : List Doc :=
  dedupe_cap batch_size [] 0
    (docs_without_alt_text st batch_size ++ docs_with_pending_alt_text st batch_size)

/-- An uploaded file as the view sees it after form validation: name, the
SHA-256 checksum of its bytes, size, and the browser-reported content type. -/
structure Upload where
  name : String
  checksum : String
  size : Nat
  content_type : String
  deriving DecidableEq, Repr

/-- `pathlib.Path(name).suffix`: the extension of the final path component
with its leading dot (`name[i:]` for `i = name.rfind('.')` when
`0 < i < len(name) - 1`).  In terms of the dot-split parts: nonempty exactly
when there are at least two parts, the last part is nonempty (the last dot is
not final), and the last dot is not at position 0 (which happens exactly when
there are two parts and the first is empty, i.e. a dotfile). -/
def path_suffix (filename : String) : String :=
  let base := (filename.splitOn "/").getLastD filename
  let parts := base.splitOn "."
  if parts.length ≥ 2 ∧ parts.getLastD "" ≠ "" ∧
      ¬ (parts.length = 2 ∧ parts.headD "" = "") then
    "." ++ parts.getLastD ""
  else ""

/-- `Path(image_file.name).suffix.lower().lstrip('.')` (views.py line 100). -/
def extension_of_upload (name : String) : String :=
  ((path_suffix name).toLower).dropWhile (fun c => c = '.')

/-- In-place `doc.save()`: replaces the row with the same primary key. -/
def update_doc (docs : List Doc) (d : Doc) : List Doc :=
  docs.map (fun x => if x.pk = d.pk then d else x)

/-- Writes back an attempt row (replace by key, or insert when new); `none`
means the operation never touched the attempt table. -/
def update_attempts (attempts : List Attempt) : Option Attempt → List Attempt
  | none => attempts
  | some a =>
      if attempts.any (fun x => x.doc_pk == a.doc_pk) then
        attempts.map (fun x => if x.doc_pk = a.doc_pk then a else x)
      else attempts ++ [a]

/-- What the upload view reports back: the document the caller is redirected
to, and whether the synchronous orchestrator was invoked for this request. -/
structure UploadResult where
  doc_pk : Nat
  sync_attempted : Bool
  deriving DecidableEq, Repr

/-- The post-dedup tail of `upload_image`: save the file (a save failure
marks the document failed and redirects), then run
`attempt_synchronous_processing` and write both records back.  `save_error`
is `none` when the file write succeeds. -/
def upload_proceed (env : SyncEnv)
    (oracle : String → Except CallError OpenRouterResponse)
    (st : AppState) (doc : Doc) (save_error : Option String) :
    AppState × UploadResult :=
  match save_error with
  | some msg =>
      let d1 := { doc with
                  processing_status := Status.failed
                  processing_error := some ("Failed to save file: " ++ msg) }
      ({ st with docs := update_doc st.docs d1 }, { doc_pk := doc.pk, sync_attempted := false })
  | none =>
      let att := find_attempt st doc.pk
      let result := attempt_synchronous_processing env oracle doc att
      ({ docs := update_doc st.docs result.1,
         attempts := update_attempts st.attempts result.2.1 },
       { doc_pk := doc.pk, sync_attempted := true })

/-- The fresh `ImageDocument` row `upload_image` creates for a first-seen
checksum (views.py lines 95-106): status pending, extension derived from the
uploaded filename. -/
def new_doc_for_upload (env : SyncEnv) (up : Upload) (new_pk : Nat) : Doc :=
  { pk := new_pk
    file_checksum := up.checksum
    file_extension := extension_of_upload up.name
    mime_type := up.content_type
    uploaded_at := env.now
    processing_status := Status.pending
    processing_error := none
    processing_started_at := none }

/-- `upload_image` (views.py lines 56-138), POST path with a valid form.
Dedup on checksum: a completed document and a pending/processing document
short-circuit to a redirect with no state change; a failed one is reset to
pending; a first-seen checksum creates a new row (primary key `new_pk`,
status pending).  Then the file is saved and the synchronous attempt runs. -/
def upload_image (env : SyncEnv)
    (oracle : String → Except CallError OpenRouterResponse)
    (st : AppState) (up : Upload) (new_pk : Nat) (save_error : Option String) :
    AppState × UploadResult :=
  match find_doc_by_checksum st up.checksum with
  | some existing_doc =>
      match existing_doc.processing_status with
      | Status.completed => (st, { doc_pk := existing_doc.pk, sync_attempted := false })
      | Status.pending => (st, { doc_pk := existing_doc.pk, sync_attempted := false })
      | Status.processing => (st, { doc_pk := existing_doc.pk, sync_attempted := false })
      | Status.failed =>
          let d := { existing_doc with
                     processing_status := Status.pending
                     processing_error := none }
          upload_proceed env oracle { st with docs := update_doc st.docs d } d save_error
  | none =>
      let d : Doc := new_doc_for_upload env up new_pk
      upload_proceed env oracle { st with docs := st.docs ++ [d] } d save_error

/-- `Path(settings.IMAGE_UPLOAD_PATH).resolve() / f'{checksum}.{ext}'` as
built by `save_image_file` (image_helpers.py lines 44-60); `resolve` is an
abstract path normaliser supplied by the filesystem. -/
def save_image_file_target (resolve : String → String)
    (image_upload_path checksum extension : String) : String :=
  let absolute_upload_dir_path := resolve image_upload_path
  let safe_extension := (extension.toLower).dropWhile (fun c => c = '.')
  absolute_upload_dir_path ++ "/" ++ checksum ++ "." ++ safe_extension

/-- `get_image_path` (image_helpers.py lines 63-69): rebuilds the stored-file
path from checksum and extension. -/
def get_image_path (resolve : String → String)
    (image_upload_path checksum extension : String) : String :=
  let upload_dir_path := resolve image_upload_path
  let safe_extension := (extension.toLower).dropWhile (fun c => c = '.')
  upload_dir_path ++ "/" ++ checksum ++ "." ++ safe_extension

/-- `THUMBNAIL_MAX_HEIGHT_PX` (thumbnail_helpers.py). -/
def THUMBNAIL_MAX_HEIGHT_PX : Nat := 100

/-- `THUMBNAIL_MAX_WIDTH_PX` (thumbnail_helpers.py). -/
def THUMBNAIL_MAX_WIDTH_PX : Nat := 200

/-- Floor of the base-2 logarithm of a natural number, computed with an
explicit fuel argument (structural recursion, so the kernel can evaluate it
on literals). -/
def nat_log2_fuel : Nat → Nat → Nat
  | 0, _ => 0
  | fuel + 1, n => if 2 ≤ n then nat_log2_fuel fuel (n / 2) + 1 else 0

/-- `⌊log₂ n⌋` for `1 ≤ n` (and `0` at `0`). -/
def nat_log2 (n : Nat) : Nat := nat_log2_fuel n n

/-- `⌊log₂ (a / b)⌋` of a positive fraction `a / b`, computed by scaling the
numerator past the denominator (`2 ^ (nat_log2 b + 1) > b`) so the scaled
quotient is at least 1 and binade boundaries are integers. -/
def floorLog2_nd (a b : Nat) : Int :=
  (nat_log2 (a * 2 ^ (nat_log2 b + 1) / b) : Int) - (nat_log2 b + 1)

/-- Round-to-nearest, ties-to-even, of the fraction `a / b` (`b > 0`): the
IEEE-754 default rounding of a nonnegative real to an integer. -/
def roundNE_nd (a b : Nat) : Nat :=
  if 2 * (a % b) < b then a / b
  else if b < 2 * (a % b) then a / b + 1
  else if a / b % 2 = 0 then a / b else a / b + 1

/-- The positive fraction `a / b` rounded to 53 significant bits: the
IEEE-754 binary64 value of the exact quotient, as a significand-exponent
pair `(m, e)` with value `m · 2 ^ e` (for in-range inputs
`2 ^ 52 ≤ m ≤ 2 ^ 53`; subnormals and overflow are outside the ranges this
model is applied to).  The fraction is rescaled into `[2 ^ 52, 2 ^ 53)` with
exact integer shifts — one of the two `toNat` exponents is always zero — and
rounded to the nearest integer significand, ties to even. -/
def round53_nd (a b : Nat) : Nat × Int :=
  let e : Int := floorLog2_nd a b - 52
  (roundNE_nd (a * 2 ^ (-e).toNat) (b * 2 ^ e.toNat), e)

/-- The rational value of a significand-exponent pair. -/
def float_value (p : Nat × Int) : ℚ := (p.1 : ℚ) * (2 : ℚ) ^ p.2

/-- `math.floor(original_width * (100 / original_height))` exactly as the
source computes it in binary64 floating point (thumbnail_helpers.py lines
46-47): `100 / original_height` is one correctly rounded division (both
integers convert to binary64 exactly in the ranges a decoded image allows),
`original_width * scale` is one correctly rounded multiplication of the
exactly-represented width by that scale, and `math.floor` of the resulting
double is exact — implemented on significand-exponent pairs: the second
rounding step sees `w · m₁ · 2 ^ e₁` as the exact fraction
`w · m₁ · 2 ^ max(e₁,0) / 2 ^ max(-e₁,0)`, and the final floor is an exact
integer shift or division of the significand. -/
def float_scaled_width (w h : Nat) : Nat :=
  let y := round53_nd 100 h
  let p := round53_nd (w * y.1 * 2 ^ y.2.toNat) (2 ^ (-y.2).toNat)
  if 0 ≤ p.2 then p.1 * 2 ^ p.2.toNat else p.1 / 2 ^ (-p.2).toNat

/-- The size arithmetic of `generate_thumbnail_webp` (thumbnail_helpers.py
lines 43-54) on the decoded, orientation-corrected source dimensions: scale
to height 100 when taller — the scaled width is
`math.floor(original_width * (100 / original_height))` in binary64 floating
point, modelled bit-exactly by `float_scaled_width` — then crop to the
leftmost 200 px when still wider. -/
def generate_thumbnail_dims (original_width original_height : Nat) : Nat × Nat :=
  let working :=
    if original_height > THUMBNAIL_MAX_HEIGHT_PX then
      (float_scaled_width original_width original_height, THUMBNAIL_MAX_HEIGHT_PX)
    else
      (original_width, original_height)
  if working.1 > THUMBNAIL_MAX_WIDTH_PX then (THUMBNAIL_MAX_WIDTH_PX, working.2)
  else working

/-- The invariant §3 of the spec states for `OpenRouterAltText`, in the form
the code maintains: a completed row has a completion time and no error, a
failed row has an error.  (Token counts are intentionally absent: they mirror
whatever the upstream `usage` object reported and may be null, see the
counterexample for that claim.) -/
def attempt_invariant (a : Attempt) : Prop :=
  (a.status = Status.completed → a.completed_at ≠ none ∧ a.error = none) ∧
  (a.status = Status.failed → a.error ≠ none)

/-- Ascending order on upload time ("oldest upload first"). -/
def sorted_by_uploaded_at (l : List Doc) : Prop :=
  l.Pairwise (fun a b => a.uploaded_at ≤ b.uploaded_at)

instance sorted_by_uploaded_at_decidable (l : List Doc) :
    Decidable (sorted_by_uploaded_at l) :=
  inferInstanceAs (Decidable (l.Pairwise (fun a b => Doc.uploaded_at a ≤ Doc.uploaded_at b)))

/-- A pending document fixture. -/
def doc_ex : Doc :=
  { pk := 1, file_checksum := "c1", file_extension := "png",
    mime_type := "image/png", uploaded_at := 0,
    processing_status := Status.pending, processing_error := none,
    processing_started_at := some 3 }

/-- A configured environment fixture. -/
def env_ex : SyncEnv :=
  { api_key := "k", model_order := ["m"], prompt_text := "p", now := 7 }

/-- An environment with the API key unset. -/
def env_nokey : SyncEnv :=
  { api_key := "", model_order := ["m"], prompt_text := "p", now := 7 }

/-- The empty database. -/
def st_empty : AppState := { docs := [], attempts := [] }

/-- An upload fixture. -/
def up_ex : Upload :=
  { name := "a.png", checksum := "abc", size := 4, content_type := "image/png" }

/-- An oracle whose every call times out. -/
def oracle_timeout : String → Except CallError OpenRouterResponse :=
  fun _ => Except.error (CallError.timeout "t")

/-- An oracle whose every call fails upstream. -/
def oracle_upstream : String → Except CallError OpenRouterResponse :=
  fun _ => Except.error (CallError.upstream "boom")

/-- An oracle for which model "A" fails and every other model succeeds. -/
def oracle_ab : String → Except CallError OpenRouterResponse :=
  fun m =>
    if m = "A" then Except.error (CallError.upstream "a-failed")
    else Except.ok empty_response

/-- An oracle that always succeeds with the sparsest well-formed response. -/
def oracle_empty_ok : String → Except CallError OpenRouterResponse :=
  fun _ => Except.ok empty_response

/-- A document whose upload succeeded earlier and completed (fixture for the
idempotence claim). -/
def doc_done : Doc :=
  { pk := 9, file_checksum := "done", file_extension := "png",
    mime_type := "image/png", uploaded_at := 2,
    processing_status := Status.completed, processing_error := none,
    processing_started_at := some 2 }

/-- Completed attempt row belonging to `doc_done`. -/
def att_done : Attempt :=
  { empty_attempt with
    doc_pk := 9
    alt_text := "a cat"
    status := Status.completed
    completed_at := some 3 }

/-- Database holding only the completed document and its attempt. -/
def st_done : AppState := { docs := [doc_done], attempts := [att_done] }

/-- Re-upload of the bytes behind `doc_done`. -/
def up_done : Upload :=
  { name := "b.png", checksum := "done", size := 4, content_type := "image/png" }

/-- Fixture: an old document (upload tick 1) whose attempt failed. -/
def doc_old_failed_att : Doc :=
  { pk := 1, file_checksum := "old", file_extension := "png",
    mime_type := "image/png", uploaded_at := 1,
    processing_status := Status.pending, processing_error := none,
    processing_started_at := none }

/-- The failed attempt row of `doc_old_failed_att`. -/
def att_old_failed : Attempt :=
  { empty_attempt with doc_pk := 1, status := Status.failed, error := some "e" }

/-- Fixture: a newer document (upload tick 2) with no attempt row. -/
def doc_new_no_att : Doc :=
  { pk := 2, file_checksum := "new", file_extension := "png",
    mime_type := "image/png", uploaded_at := 2,
    processing_status := Status.pending, processing_error := none,
    processing_started_at := none }

/-- Database where the older eligible document has a failed attempt and the
newer one has none. -/
def st_scan : AppState :=
  { docs := [doc_old_failed_att, doc_new_no_att], attempts := [att_old_failed] }

/-- The state of a first-seen uploaded document after the wrapper marked it
processing and the credentials check skipped the attempt (derived form used
to state the configuration-error claims). -/
def skipped_new_doc (env : SyncEnv) (up : Upload) (new_pk : Nat) : Doc :=
  { new_doc_for_upload env up new_pk with
    processing_status := Status.processing
    processing_error := none
    processing_started_at := some env.now }

/-- C10: `get_image_path(checksum, extension)` returns exactly the path
`save_image_file(file, checksum, extension)` writes to — both build
`{checksum}.{ext}` under the resolved configured upload directory with the
extension lowercased and leading dots stripped — so a file saved at upload
time is found at the same key by the batch-retry reader. -/
theorem image_path_roundtrip (resolve : String → String)
    (image_upload_path checksum extension : String) :
    get_image_path resolve image_upload_path checksum extension =
      save_image_file_target resolve image_upload_path checksum extension := rfl

/-- C4 counterexample: with an empty model list,
`call_openrouter_with_model_order` does not raise; `last_exception` is never
set, so the function returns the initial `response_json = {}` normally. -/
theorem empty_model_order_cex :
    call_openrouter_with_model_order oracle_upstream [] =
      Except.ok empty_response := rfl

/-- C4 amended: calling `call_openrouter_with_model_order` with an empty
model list returns normally with the empty response dict for every oracle;
it does not raise.  (Both callers guard against an empty model order before
reaching the call.) -/
theorem empty_model_order_returns_empty
    (oracle : String → Except CallError OpenRouterResponse) :
    call_openrouter_with_model_order oracle [] = Except.ok empty_response := rfl

/-- Fuel-indexed correctness of the base-2 logarithm: with enough fuel the
result brackets `n` between consecutive powers of two. -/
theorem nat_log2_fuel_spec :
    ∀ (fuel n : Nat), 1 ≤ n → n ≤ fuel →
      2 ^ nat_log2_fuel fuel n ≤ n ∧ n < 2 ^ (nat_log2_fuel fuel n + 1) := by
  intro fuel
  induction fuel with
  | zero => intro n h1 h2; omega
  | succ f ih =>
      intro n h1 h2
      by_cases hn : 2 ≤ n
      · have hrec := ih (n / 2) (by omega) (by omega)
        simp only [nat_log2_fuel, if_pos hn]
        have hdm := Nat.div_add_mod n 2
        have hmod : n % 2 < 2 := Nat.mod_lt n (by omega)
        constructor
        · have := hrec.1
          rw [pow_succ]
          omega
        · have := hrec.2
          rw [pow_succ, pow_succ] at *
          omega
      · simp only [nat_log2_fuel, if_neg hn]
        simp only [pow_zero, pow_one]
        omega

/-- `2 ^ ⌊log₂ n⌋ ≤ n < 2 ^ (⌊log₂ n⌋ + 1)` for positive `n`. -/
theorem nat_log2_spec (n : Nat) (h1 : 1 ≤ n) :
    2 ^ nat_log2 n ≤ n ∧ n < 2 ^ (nat_log2 n + 1) :=
  nat_log2_fuel_spec n n h1 (Nat.le_refl n)

/-- `floorLog2_nd` brackets the fraction between consecutive powers of two:
it is exactly `⌊log₂ (a / b)⌋`. -/
theorem floorLog2_nd_spec (a b : Nat) (ha : 0 < a) (hb : 0 < b) :
    (2 : ℚ) ^ floorLog2_nd a b ≤ (a : ℚ) / (b : ℚ) ∧
      (a : ℚ) / (b : ℚ) < (2 : ℚ) ^ (floorLog2_nd a b + 1) := by
  have hk := nat_log2_spec b hb
  have hN1 : 1 ≤ a * 2 ^ (nat_log2 b + 1) / b := by
    rw [Nat.one_le_div_iff hb]
    calc b ≤ 2 ^ (nat_log2 b + 1) := by omega
    _ ≤ a * 2 ^ (nat_log2 b + 1) := Nat.le_mul_of_pos_left _ ha
  have hL := nat_log2_spec _ hN1
  have hlowN : 2 ^ nat_log2 (a * 2 ^ (nat_log2 b + 1) / b) * b ≤
      a * 2 ^ (nat_log2 b + 1) :=
    (Nat.le_div_iff_mul_le hb).mp hL.1
  have hhighN : a * 2 ^ (nat_log2 b + 1) <
      2 ^ (nat_log2 (a * 2 ^ (nat_log2 b + 1) / b) + 1) * b := by
    have h2 := hL.2
    have hdiv := Nat.div_add_mod (a * 2 ^ (nat_log2 b + 1)) b
    have hmod : a * 2 ^ (nat_log2 b + 1) % b < b := Nat.mod_lt _ hb
    nlinarith [h2, hdiv, hmod]
  have hbq : (0 : ℚ) < (b : ℚ) := by exact_mod_cast hb
  have hfl : floorLog2_nd a b =
      (nat_log2 (a * 2 ^ (nat_log2 b + 1) / b) : ℤ) -
        ((nat_log2 b + 1 : ℕ) : ℤ) := rfl
  constructor
  · rw [hfl, zpow_sub₀ (by norm_num : (2:ℚ) ≠ 0), zpow_natCast, zpow_natCast]
    rw [div_le_div_iff₀ (by positivity) hbq]
    exact_mod_cast hlowN
  · have hexp : floorLog2_nd a b + 1 =
        ((nat_log2 (a * 2 ^ (nat_log2 b + 1) / b) + 1 : ℕ) : ℤ) -
          ((nat_log2 b + 1 : ℕ) : ℤ) := by
      rw [hfl]; push_cast; ring
    rw [hexp, zpow_sub₀ (by norm_num : (2:ℚ) ≠ 0), zpow_natCast, zpow_natCast]
    rw [div_lt_div_iff₀ hbq (by positivity)]
    exact_mod_cast hhighN

/-- Rounding to the nearest integer (ties to even) moves the value by at
most one half. -/
theorem roundNE_nd_err (a b : Nat) (hb : 0 < b) :
    |((roundNE_nd a b : ℕ) : ℚ) - (a : ℚ) / (b : ℚ)| ≤ 1 / 2 := by
  have hdm := Nat.div_add_mod a b
  have hmod : a % b < b := Nat.mod_lt a hb
  have hbq : (0 : ℚ) < (b : ℚ) := by exact_mod_cast hb
  have hcast : ((b * (a / b) + a % b : ℕ) : ℚ) = (a : ℚ) := by exact_mod_cast congrArg Nat.cast hdm
  push_cast at hcast
  have key : (a : ℚ) / (b : ℚ) - ((a / b : ℕ) : ℚ) = ((a % b : ℕ) : ℚ) / (b : ℚ) := by
    rw [eq_div_iff (ne_of_gt hbq), sub_mul, div_mul_cancel₀ _ (ne_of_gt hbq)]
    linarith
  have hrq : (0 : ℚ) ≤ ((a % b : ℕ) : ℚ) / (b : ℚ) := by positivity
  unfold roundNE_nd
  by_cases h1 : 2 * (a % b) < b
  · rw [if_pos h1]
    have h1q : ((a % b : ℕ) : ℚ) / (b : ℚ) < 1 / 2 := by
      rw [div_lt_div_iff₀ hbq (by norm_num)]
      have : (2 * (a % b) : ℕ) < (b : ℕ) := h1
      have hc : ((2 * (a % b) : ℕ) : ℚ) < (b : ℚ) := by exact_mod_cast this
      push_cast at hc
      linarith
    rw [abs_sub_comm, key, abs_of_nonneg hrq]
    linarith
  · rw [if_neg h1]
    have h1q : 1 / 2 ≤ ((a % b : ℕ) : ℚ) / (b : ℚ) := by
      rw [div_le_div_iff₀ (by norm_num) hbq]
      have : (b : ℕ) ≤ 2 * (a % b) := by omega
      have hc : ((b : ℕ) : ℚ) ≤ ((2 * (a % b) : ℕ) : ℚ) := by exact_mod_cast this
      push_cast at hc
      linarith
    have hlt1 : ((a % b : ℕ) : ℚ) / (b : ℚ) < 1 := by
      rw [div_lt_one hbq]
      exact_mod_cast hmod
    have hshift : ((a / b + 1 : ℕ) : ℚ) - (a : ℚ) / (b : ℚ) =
        1 - ((a % b : ℕ) : ℚ) / (b : ℚ) := by
      push_cast
      linarith [key]
    by_cases h2 : b < 2 * (a % b)
    · rw [if_pos h2]
      rw [hshift, abs_of_nonneg (by linarith)]
      have h2q : 1 / 2 < ((a % b : ℕ) : ℚ) / (b : ℚ) := by
        rw [div_lt_div_iff₀ (by norm_num) hbq]
        have hc : ((b : ℕ) : ℚ) < ((2 * (a % b) : ℕ) : ℚ) := by exact_mod_cast h2
        push_cast at hc
        linarith
      linarith
    · rw [if_neg h2]
      have heq : ((a % b : ℕ) : ℚ) / (b : ℚ) = 1 / 2 := by
        have hbe : b = 2 * (a % b) := by omega
        rw [div_eq_div_iff (ne_of_gt hbq) (by norm_num : (2:ℚ) ≠ 0)]
        have hc : ((b : ℕ) : ℚ) = ((2 * (a % b) : ℕ) : ℚ) := by exact_mod_cast congrArg Nat.cast hbe
        push_cast at hc
        linarith
      by_cases h3 : a / b % 2 = 0
      · rw [if_pos h3, abs_sub_comm, key, abs_of_nonneg hrq, heq]
      · rw [if_neg h3, hshift, heq, abs_of_nonneg (by norm_num)]
        norm_num

/-- Splitting an integer power of two into a quotient of natural powers. -/
theorem pow2_decomp (e : ℤ) :
    (2 : ℚ) ^ ((-e).toNat) / (2 : ℚ) ^ (e.toNat) = (2 : ℚ) ^ (-e) := by
  rw [← zpow_natCast (2 : ℚ) ((-e).toNat), ← zpow_natCast (2 : ℚ) (e.toNat),
    ← zpow_sub₀ (by norm_num : (2:ℚ) ≠ 0)]
  congr 1
  omega

/-- Relative-error bound of binary64 rounding: the rounded value is within
`(a / b) · 2⁻⁵³` of the exact quotient (half an ulp in the normal range). -/
theorem round53_nd_err (a b : Nat) (ha : 0 < a) (hb : 0 < b) :
    |float_value (round53_nd a b) - (a : ℚ) / (b : ℚ)| ≤ ((a : ℚ) / (b : ℚ)) / 2 ^ 53 := by
  have haq : (0 : ℚ) < (a : ℚ) := by exact_mod_cast ha
  have hbq : (0 : ℚ) < (b : ℚ) := by exact_mod_cast hb
  have h2ne : (2 : ℚ) ≠ 0 := by norm_num
  obtain ⟨hlow, _⟩ := floorLog2_nd_spec a b ha hb
  have hbpos2 : 0 < b * 2 ^ (floorLog2_nd a b - 52).toNat := by positivity
  have herr := roundNE_nd_err (a * 2 ^ (-(floorLog2_nd a b - 52)).toNat)
    (b * 2 ^ (floorLog2_nd a b - 52).toNat) hbpos2
  have hident : ((a * 2 ^ (-(floorLog2_nd a b - 52)).toNat : ℕ) : ℚ) /
      ((b * 2 ^ (floorLog2_nd a b - 52).toNat : ℕ) : ℚ) =
      ((a : ℚ) / (b : ℚ)) * (2 : ℚ) ^ (-(floorLog2_nd a b - 52)) := by
    push_cast
    rw [← pow2_decomp]
    rw [div_mul_div_comm]
  have hepos : (0 : ℚ) < (2 : ℚ) ^ (floorLog2_nd a b - 52) := zpow_pos (by norm_num) _
  have hval : float_value (round53_nd a b) =
      ((roundNE_nd (a * 2 ^ (-(floorLog2_nd a b - 52)).toNat)
        (b * 2 ^ (floorLog2_nd a b - 52).toNat) : ℕ) : ℚ) *
        (2 : ℚ) ^ (floorLog2_nd a b - 52) := rfl
  have hcancel : ((a : ℚ) / (b : ℚ)) * (2 : ℚ) ^ (-(floorLog2_nd a b - 52)) *
      (2 : ℚ) ^ (floorLog2_nd a b - 52) = (a : ℚ) / (b : ℚ) := by
    rw [mul_assoc, ← zpow_add₀ h2ne]
    simp
  have hkey : float_value (round53_nd a b) - (a : ℚ) / (b : ℚ) =
      (((roundNE_nd (a * 2 ^ (-(floorLog2_nd a b - 52)).toNat)
          (b * 2 ^ (floorLog2_nd a b - 52).toNat) : ℕ) : ℚ) -
        ((a : ℚ) / (b : ℚ)) * (2 : ℚ) ^ (-(floorLog2_nd a b - 52))) *
        (2 : ℚ) ^ (floorLog2_nd a b - 52) := by
    rw [hval, sub_mul, hcancel]
  rw [hkey, abs_mul, abs_of_pos hepos]
  rw [hident] at herr
  calc |((roundNE_nd (a * 2 ^ (-(floorLog2_nd a b - 52)).toNat)
          (b * 2 ^ (floorLog2_nd a b - 52).toNat) : ℕ) : ℚ) -
        ((a : ℚ) / (b : ℚ)) * (2 : ℚ) ^ (-(floorLog2_nd a b - 52))| *
        (2 : ℚ) ^ (floorLog2_nd a b - 52) ≤
      (1 / 2) * (2 : ℚ) ^ (floorLog2_nd a b - 52) :=
        mul_le_mul_of_nonneg_right herr (le_of_lt hepos)
  _ = (2 : ℚ) ^ (floorLog2_nd a b - 53) := by
        rw [zpow_sub₀ h2ne, zpow_sub₀ h2ne]
        ring
  _ = (2 : ℚ) ^ floorLog2_nd a b * (2 : ℚ) ^ (-(53 : ℤ)) := by
        rw [← zpow_add₀ h2ne, sub_eq_add_neg]
  _ ≤ ((a : ℚ) / (b : ℚ)) * (2 : ℚ) ^ (-(53 : ℤ)) :=
        mul_le_mul_of_nonneg_right hlow (le_of_lt (zpow_pos (by norm_num) _))
  _ = ((a : ℚ) / (b : ℚ)) / 2 ^ 53 := by
        rw [zpow_neg, div_eq_mul_inv]
        norm_num
        try ring

/-- Lower bound: binary64 rounding loses at most a `2⁻⁵³` relative factor. -/
theorem round53_nd_lower (a b : Nat) (ha : 0 < a) (hb : 0 < b) :
    ((a : ℚ) / (b : ℚ)) * (1 - 1 / 2 ^ 53) ≤ float_value (round53_nd a b) := by
  have h := abs_le.mp (round53_nd_err a b ha hb)
  have h1 := h.1
  nlinarith

/-- The binary64 value of a positive fraction is positive. -/
theorem round53_nd_pos (a b : Nat) (ha : 0 < a) (hb : 0 < b) :
    0 < float_value (round53_nd a b) := by
  have h := round53_nd_lower a b ha hb
  have haq : (0 : ℚ) < (a : ℚ) := by exact_mod_cast ha
  have hbq : (0 : ℚ) < (b : ℚ) := by exact_mod_cast hb
  nlinarith [div_pos haq hbq]

/-- The significand of the binary64 value of a positive fraction is
nonzero. -/
theorem round53_nd_mantissa_pos (a b : Nat) (ha : 0 < a) (hb : 0 < b) :
    0 < (round53_nd a b).1 := by
  by_contra hm
  have hm0 : (round53_nd a b).1 = 0 := by omega
  have hv := round53_nd_pos a b ha hb
  have : float_value (round53_nd a b) = 0 := by
    unfold float_value
    rw [hm0]
    simp
  rw [this] at hv
  exact lt_irrefl 0 hv

/-- The exact product `w · m · 2 ^ e` written as the fraction fed to the
second rounding step of `float_scaled_width`. -/
theorem mul_value_frac (w m : Nat) (e : ℤ) :
    ((w * m * 2 ^ e.toNat : ℕ) : ℚ) / ((2 ^ (-e).toNat : ℕ) : ℚ) =
      (w : ℚ) * float_value (m, e) := by
  have h := pow2_decomp (-e)
  rw [neg_neg] at h
  unfold float_value
  push_cast
  rw [← h]
  ring

/-- For a decoded source (80-megapixel ceiling) with `h > 100` and
`w / h > 2`, the binary64 scaled width is still at least 200: the two
rounding steps lose a relative factor of at most `(1 - 2⁻⁵³)²`, while the
exact value `100 · w / h` exceeds 200 by at least `100 / h`, which dwarfs
that loss for any decodable height. -/
theorem float_width_ge_200 (w h : Nat) (hh : 100 < h) (hw : 2 * h < w)
    (hpx : w * h ≤ 80000000) :
    200 ≤ float_scaled_width w h := by
  have hhq : (100 : ℚ) < (h : ℚ) := by exact_mod_cast hh
  have hh0 : (0 : ℚ) < (h : ℚ) := by linarith
  have hwq : 2 * (h : ℚ) + 1 ≤ (w : ℚ) := by exact_mod_cast hw
  have hw0 : (0 : ℚ) < (w : ℚ) := by linarith
  have hwn : 0 < w := by omega
  have hhn : 0 < h := by omega
  have hhle : (h : ℚ) ≤ 80000000 := by
    have : h ≤ 80000000 := le_trans (Nat.le_mul_of_pos_left h hwn) hpx
    exact_mod_cast this
  have hy := round53_nd_lower 100 h (by omega) hhn
  have hy0 := round53_nd_pos 100 h (by omega) hhn
  have hm1 := round53_nd_mantissa_pos 100 h (by omega) hhn
  have ha2 : 0 < w * (round53_nd 100 h).1 * 2 ^ (round53_nd 100 h).2.toNat := by positivity
  have hb2 : 0 < 2 ^ (-(round53_nd 100 h).2).toNat := by positivity
  have hp := round53_nd_lower _ _ ha2 hb2
  have hfrac : ((w * (round53_nd 100 h).1 * 2 ^ (round53_nd 100 h).2.toNat : ℕ) : ℚ) /
      ((2 ^ (-(round53_nd 100 h).2).toNat : ℕ) : ℚ) =
      (w : ℚ) * float_value (round53_nd 100 h) :=
    mul_value_frac w (round53_nd 100 h).1 (round53_nd 100 h).2
  rw [hfrac] at hp
  have hc : (0 : ℚ) ≤ 1 - 1 / 2 ^ 53 := by norm_num
  have e1 : (w : ℚ) * (100 / (h : ℚ) * (1 - 1 / 2 ^ 53)) ≤
      (w : ℚ) * float_value (round53_nd 100 h) := by
    have hy' : (100 : ℚ) / (h : ℚ) * (1 - 1 / 2 ^ 53) ≤ float_value (round53_nd 100 h) := by
      have : ((100 : ℕ) : ℚ) = (100 : ℚ) := by norm_num
      rw [this] at hy
      exact hy
    exact mul_le_mul_of_nonneg_left hy' (le_of_lt hw0)
  have e3 : (w : ℚ) * (100 / (h : ℚ) * (1 - 1 / 2 ^ 53)) * (1 - 1 / 2 ^ 53) ≤
      float_value (round53_nd (w * (round53_nd 100 h).1 * 2 ^ (round53_nd 100 h).2.toNat)
        (2 ^ (-(round53_nd 100 h).2).toNat)) :=
    le_trans (mul_le_mul_of_nonneg_right e1 hc) hp
  have e4 : (200 : ℚ) ≤ (w : ℚ) * (100 / (h : ℚ) * (1 - 1 / 2 ^ 53)) * (1 - 1 / 2 ^ 53) := by
    rw [show (w : ℚ) * (100 / (h : ℚ) * (1 - 1 / 2 ^ 53)) * (1 - 1 / 2 ^ 53) =
        (w : ℚ) * 100 * ((1 - 1 / 2 ^ 53) * (1 - 1 / 2 ^ 53)) / (h : ℚ) by ring]
    rw [le_div_iff₀ hh0]
    nlinarith [hwq, hhle, hhq]
  have hchain := le_trans e4 e3
  unfold float_scaled_width
  by_cases hsgn : 0 ≤ (round53_nd (w * (round53_nd 100 h).1 * 2 ^ (round53_nd 100 h).2.toNat)
      (2 ^ (-(round53_nd 100 h).2).toNat)).2
  · simp only [if_pos hsgn]
    have hv : float_value (round53_nd (w * (round53_nd 100 h).1 * 2 ^ (round53_nd 100 h).2.toNat)
        (2 ^ (-(round53_nd 100 h).2).toNat)) =
        (((round53_nd (w * (round53_nd 100 h).1 * 2 ^ (round53_nd 100 h).2.toNat)
          (2 ^ (-(round53_nd 100 h).2).toNat)).1 *
          2 ^ (round53_nd (w * (round53_nd 100 h).1 * 2 ^ (round53_nd 100 h).2.toNat)
            (2 ^ (-(round53_nd 100 h).2).toNat)).2.toNat : ℕ) : ℚ) := by
      unfold float_value
      push_cast
      rw [← zpow_natCast (2 : ℚ), Int.toNat_of_nonneg hsgn]
    rw [hv] at hchain
    exact_mod_cast hchain
  · simp only [if_neg hsgn]
    push_neg at hsgn
    have hknn : (0:ℤ) ≤ -(round53_nd (w * (round53_nd 100 h).1 * 2 ^ (round53_nd 100 h).2.toNat)
        (2 ^ (-(round53_nd 100 h).2).toNat)).2 := by omega
    have hv : float_value (round53_nd (w * (round53_nd 100 h).1 * 2 ^ (round53_nd 100 h).2.toNat)
        (2 ^ (-(round53_nd 100 h).2).toNat)) =
        (((round53_nd (w * (round53_nd 100 h).1 * 2 ^ (round53_nd 100 h).2.toNat)
          (2 ^ (-(round53_nd 100 h).2).toNat)).1 : ℕ) : ℚ) /
          ((2 ^ ((-(round53_nd (w * (round53_nd 100 h).1 * 2 ^ (round53_nd 100 h).2.toNat)
            (2 ^ (-(round53_nd 100 h).2).toNat)).2).toNat) : ℕ) : ℚ) := by
      unfold float_value
      push_cast
      rw [div_eq_mul_inv, ← zpow_natCast (2 : ℚ), Int.toNat_of_nonneg hknn, ← zpow_neg, neg_neg]
    rw [hv] at hchain
    rw [Nat.le_div_iff_mul_le (by positivity)]
    have h2kq : (0:ℚ) < ((2 ^ ((-(round53_nd (w * (round53_nd 100 h).1 *
        2 ^ (round53_nd 100 h).2.toNat) (2 ^ (-(round53_nd 100 h).2).toNat)).2).toNat) : ℕ) : ℚ) := by
      positivity
    rw [le_div_iff₀ h2kq] at hchain
    exact_mod_cast hchain


/-- C7 counterexample: two failures of the claim as stated.  A 300×50 source
has width/height 6 > 2, but its height does not exceed 100 px, so no
downscale happens and the crop leaves 200×50, not 200×100.  And a 145×116
source shows the width is not the exact `⌊w·100/h⌋`: the exact value is
`14500/116 = 125`, but in binary64 `145 * (100/116)` falls just below 125,
so the program produces width 124. -/
theorem thumbnail_dims_cex :
    (300 > 2 * 50 ∧ generate_thumbnail_dims 300 50 = (200, 50) ∧
      generate_thumbnail_dims 300 50 ≠ (200, 100)) ∧
    (116 > 100 ∧ 145 * 100 / 116 = 125 ∧
      generate_thumbnail_dims 145 116 = (124, 100) ∧
      generate_thumbnail_dims 145 116 ≠ (125, 100)) := by decide

/-- C7 amended: for a source of width w and height h with h > 100, the
thumbnail is downscaled to height exactly 100 with width
`math.floor(w * (100/h))` computed in binary64 floating point (which can
fall one below the exact `⌊w·100/h⌋`, e.g. 145×116 yields 124, not 125); if
that width still exceeds 200 it is cropped to the leftmost 200 pixels with
no further rescaling; a 4000×3000 source yields 133×100, and any source
with h > 100 and w/h > 2 within the decoder's 80-megapixel ceiling yields
exactly 200×100. -/
theorem thumbnail_dims_amended (w h : Nat) (hh : h > 100) :
    (float_scaled_width w h ≤ 200 →
      generate_thumbnail_dims w h = (float_scaled_width w h, 100)) ∧
    (float_scaled_width w h > 200 → generate_thumbnail_dims w h = (200, 100)) ∧
    (w > 2 * h → w * h ≤ 80000000 → generate_thumbnail_dims w h = (200, 100)) ∧
    generate_thumbnail_dims 4000 3000 = (133, 100) := by
  refine ⟨?_, ?_, ?_, by decide⟩
  · intro hle
    have hnot : ¬ (float_scaled_width w h > 200) := by omega
    simp [generate_thumbnail_dims, THUMBNAIL_MAX_HEIGHT_PX, THUMBNAIL_MAX_WIDTH_PX,
      hh, hnot]
  · intro hgt
    simp [generate_thumbnail_dims, THUMBNAIL_MAX_HEIGHT_PX, THUMBNAIL_MAX_WIDTH_PX,
      hh, hgt]
  · intro hratio hpx
    have hge : 200 ≤ float_scaled_width w h := float_width_ge_200 w h hh hratio hpx
    rcases Nat.lt_or_ge 200 (float_scaled_width w h) with hgt | hle2
    · simp [generate_thumbnail_dims, THUMBNAIL_MAX_HEIGHT_PX, THUMBNAIL_MAX_WIDTH_PX,
        hh, hgt]
    · have heq : float_scaled_width w h = 200 := Nat.le_antisymm hle2 hge
      have hnot : ¬ (float_scaled_width w h > 200) := by omega
      simp [generate_thumbnail_dims, THUMBNAIL_MAX_HEIGHT_PX, THUMBNAIL_MAX_WIDTH_PX,
        hh, hnot, heq]

/-- C7 witness: the amended theorem applied to a 500×200 source. -/
theorem thumbnail_dims_amended_witness :
    (float_scaled_width 500 200 ≤ 200 →
      generate_thumbnail_dims 500 200 = (float_scaled_width 500 200, 100)) ∧
    (float_scaled_width 500 200 > 200 → generate_thumbnail_dims 500 200 = (200, 100)) ∧
    (500 > 2 * 200 → 500 * 200 ≤ 80000000 → generate_thumbnail_dims 500 200 = (200, 100)) ∧
    generate_thumbnail_dims 4000 3000 = (133, 100) :=
  thumbnail_dims_amended 500 200 (by decide)

/-- C6: `parse_openrouter_response` is total on well-formed-but-sparse
responses; each missing top-level field defaults to the empty string or null
(the function is a Lean function, so it never raises by construction). -/
theorem parse_sparse_defaults (r : OpenRouterResponse) :
    (r.id = none → (parse_openrouter_response r).openrouter_response_id = "") ∧
    (r.provider = none → (parse_openrouter_response r).provider = "") ∧
    (r.model = none → (parse_openrouter_response r).model = "") ∧
    (r.choices = none → (parse_openrouter_response r).alt_text = "" ∧
        (parse_openrouter_response r).finish_reason = "") ∧
    (r.usage = none → (parse_openrouter_response r).prompt_tokens = none ∧
        (parse_openrouter_response r).completion_tokens = none ∧
        (parse_openrouter_response r).total_tokens = none) ∧
    (r.created = none → (parse_openrouter_response r).openrouter_created_at = none) := by
  refine ⟨?_, ?_, ?_, ?_, ?_, ?_⟩ <;> intro h <;>
    simp [parse_openrouter_response, h]

/-- C6 witness: the defaults at the fully sparse response `{}`. -/
theorem parse_sparse_defaults_witness :
    (parse_openrouter_response empty_response).openrouter_response_id = "" ∧
    (parse_openrouter_response empty_response).provider = "" ∧
    (parse_openrouter_response empty_response).model = "" ∧
    (parse_openrouter_response empty_response).alt_text = "" ∧
    (parse_openrouter_response empty_response).finish_reason = "" ∧
    (parse_openrouter_response empty_response).prompt_tokens = none ∧
    (parse_openrouter_response empty_response).completion_tokens = none ∧
    (parse_openrouter_response empty_response).total_tokens = none ∧
    (parse_openrouter_response empty_response).openrouter_created_at = none := by
  obtain ⟨h1, h2, h3, h4, h5, h6⟩ := parse_sparse_defaults empty_response
  exact ⟨h1 rfl, h2 rfl, h3 rfl, (h4 rfl).1, (h4 rfl).2, (h5 rfl).1,
    (h5 rfl).2.1, (h5 rfl).2.2, h6 rfl⟩

/-- C9: re-submitting bytes whose document is already completed is
idempotent at the upload path: the view redirects to the existing report
without invoking the synchronous orchestrator (hence without any vision API
call), the database is untouched, and the existing attempt's alt text is
unchanged. -/
theorem upload_completed_idempotent (env : SyncEnv)
    (oracle : String → Except CallError OpenRouterResponse)
    (st : AppState) (up : Upload) (new_pk : Nat) (save_error : Option String)
    (d : Doc)
    (hfind : find_doc_by_checksum st up.checksum = some d)
    (hc : d.processing_status = Status.completed) :
    (upload_image env oracle st up new_pk save_error).1 = st ∧
    (upload_image env oracle st up new_pk save_error).2.sync_attempted = false ∧
    (find_attempt (upload_image env oracle st up new_pk save_error).1 d.pk).map
        Attempt.alt_text = (find_attempt st d.pk).map Attempt.alt_text := by
  simp [upload_image, hfind, hc]

/-- C9 witness: re-upload of the completed fixture leaves the database
unchanged. -/
theorem upload_completed_idempotent_witness :
    (upload_image env_ex oracle_timeout st_done up_done 3 none).1 = st_done ∧
    (upload_image env_ex oracle_timeout st_done up_done 3 none).2.sync_attempted = false ∧
    (find_attempt (upload_image env_ex oracle_timeout st_done up_done 3 none).1
        doc_done.pk).map Attempt.alt_text =
      (find_attempt st_done doc_done.pk).map Attempt.alt_text :=
  upload_completed_idempotent env_ex oracle_timeout st_done up_done 3 none doc_done
    (by decide) (by decide)

/-- C1: when the vision call of a synchronous attempt raises a timeout (with
credentials configured), `attempt_openrouter_sync` sets the attempt row to
pending with the "timed out, will retry" error message, sets the document to
pending with `processing_started_at` cleared to null, and marks neither
record failed. -/
theorem sync_timeout_leaves_both_pending (env : SyncEnv)
    (oracle : String → Except CallError OpenRouterResponse)
    (doc : Doc) (att : Option Attempt) (msg : String)
    (hcred : ¬ (env.api_key = "" ∨ env.model_order = []))
    (hto : call_openrouter_with_model_order oracle env.model_order =
      Except.error (CallError.timeout msg)) :
    (attempt_openrouter_sync env oracle doc att).1.processing_status = Status.pending ∧
    (attempt_openrouter_sync env oracle doc att).1.processing_started_at = none ∧
    ((attempt_openrouter_sync env oracle doc att).2.1).map Attempt.status =
        some Status.pending ∧
    ((attempt_openrouter_sync env oracle doc att).2.1).map Attempt.error =
        some (some sync_timeout_message) ∧
    (attempt_openrouter_sync env oracle doc att).1.processing_status ≠ Status.failed ∧
    ((attempt_openrouter_sync env oracle doc att).2.1).map Attempt.status ≠
        some Status.failed := by
  simp [attempt_openrouter_sync, hcred, hto]

/-- C1 witness: the theorem at an always-timing-out oracle. -/
theorem sync_timeout_leaves_both_pending_witness :
    (attempt_openrouter_sync env_ex oracle_timeout doc_ex none).1.processing_status =
        Status.pending ∧
    (attempt_openrouter_sync env_ex oracle_timeout doc_ex none).1.processing_started_at =
        none ∧
    ((attempt_openrouter_sync env_ex oracle_timeout doc_ex none).2.1).map Attempt.status =
        some Status.pending ∧
    ((attempt_openrouter_sync env_ex oracle_timeout doc_ex none).2.1).map Attempt.error =
        some (some sync_timeout_message) ∧
    (attempt_openrouter_sync env_ex oracle_timeout doc_ex none).1.processing_status ≠
        Status.failed ∧
    ((attempt_openrouter_sync env_ex oracle_timeout doc_ex none).2.1).map Attempt.status ≠
        some Status.failed :=
  sync_timeout_leaves_both_pending env_ex oracle_timeout doc_ex none "t"
    (by decide) (by rfl)

/-- Helper: the loop skips any prefix of failing models and returns the first
success with `last_exception` cleared. -/
theorem call_loop_first_ok (oracle : String → Except CallError OpenRouterResponse)
    (ms₁ : List String) (m : String) (r : OpenRouterResponse)
    (hfail : ∀ x ∈ ms₁, ∃ e, oracle x = Except.error e)
    (hok : oracle m = Except.ok r) :
    ∀ (last : Option CallError) (resp : OpenRouterResponse) (ms₂ : List String),
      call_loop oracle last resp (ms₁ ++ m :: ms₂) = (none, r) := by
  induction ms₁ with
  | nil =>
      intro last resp ms₂
      simp [call_loop, hok]
  | cons x xs ih =>
      intro last resp ms₂
      obtain ⟨e, he⟩ := hfail x (by simp)
      simpa [call_loop, he] using
        ih (fun y hy => hfail y (by simp [hy])) (some e) resp ms₂

/-- Helper: when every model fails, the loop ends with `last_exception` set
to the error of the last model and `response_json` untouched. -/
theorem call_loop_all_fail (oracle : String → Except CallError OpenRouterResponse) :
    ∀ (ms : List String) (mlast : String) (e : CallError),
      (∀ x ∈ ms, ∃ er, oracle x = Except.error er) →
      ms.getLast? = some mlast → oracle mlast = Except.error e →
      ∀ (last : Option CallError) (resp : OpenRouterResponse),
        call_loop oracle last resp ms = (some e, resp) := by
  intro ms
  induction ms with
  | nil =>
      intro mlast e _ hlast
      simp at hlast
  | cons x xs ih =>
      intro mlast e hfail hlast hor last resp
      obtain ⟨e', he'⟩ := hfail x (by simp)
      cases xs with
      | nil =>
          simp at hlast
          subst hlast
          rw [hor] at he'
          simp [call_loop, hor]
      | cons y ys =>
          have hlast' : (y :: ys).getLast? = some mlast := by
            simpa [List.getLast?_cons_cons] using hlast
          simp only [call_loop, he']
          exact ih mlast e (fun z hz => hfail z (by simp [hz])) hlast' hor (some e') resp

/-- C2: `call_openrouter_with_model_order` tries model ids strictly in list
order: if some model succeeds after all earlier ones failed, it returns that
model's raw response without raising (earlier errors are not surfaced); if
every model fails, it raises exactly the last encountered error. -/
theorem model_order_fallback (oracle : String → Except CallError OpenRouterResponse) :
    (∀ (ms₁ : List String) (m : String) (ms₂ : List String) (r : OpenRouterResponse),
        (∀ x ∈ ms₁, ∃ e, oracle x = Except.error e) → oracle m = Except.ok r →
        call_openrouter_with_model_order oracle (ms₁ ++ m :: ms₂) = Except.ok r) ∧
    (∀ (ms : List String) (mlast : String) (e : CallError),
        (∀ x ∈ ms, ∃ er, oracle x = Except.error er) →
        ms.getLast? = some mlast → oracle mlast = Except.error e →
        call_openrouter_with_model_order oracle ms = Except.error e) := by
  constructor
  · intro ms₁ m ms₂ r hfail hok
    simp [call_openrouter_with_model_order,
      call_loop_first_ok oracle ms₁ m r hfail hok none empty_response ms₂]
  · intro ms mlast e hfail hlast hor
    simp [call_openrouter_with_model_order,
      call_loop_all_fail oracle ms mlast e hfail hlast hor none empty_response]

/-- C2 witness: model "A" fails and "B" succeeds, so the call returns B's
response; and when both "A" and "B" fail, the last ("B") error surfaces. -/
theorem model_order_fallback_witness :
    call_openrouter_with_model_order oracle_ab ["A", "B"] =
        Except.ok empty_response ∧
    call_openrouter_with_model_order oracle_upstream ["A", "B"] =
        Except.error (CallError.upstream "boom") := by
  constructor
  · exact (model_order_fallback oracle_ab).1 ["A"] "B" [] empty_response
      (by intro x hx; simp at hx; subst hx; exact ⟨CallError.upstream "a-failed", rfl⟩)
      (by rfl)
  · exact (model_order_fallback oracle_upstream).2 ["A", "B"] "B"
      (CallError.upstream "boom")
      (by intro x _; exact ⟨CallError.upstream "boom", rfl⟩)
      (by rfl) (by rfl)

/-- C5 counterexample: a successful attempt whose upstream response carries
no `usage` object is persisted as completed with all token counts null
(`persist_openrouter_alt_text` copies the parsed `None`s verbatim). -/
theorem completed_with_null_tokens_cex :
    ((attempt_openrouter_sync env_ex oracle_empty_ok doc_ex none).2.1).map
        Attempt.status = some Status.completed ∧
    ((attempt_openrouter_sync env_ex oracle_empty_ok doc_ex none).2.1).map
        Attempt.prompt_tokens = some none ∧
    ((attempt_openrouter_sync env_ex oracle_empty_ok doc_ex none).2.1).map
        Attempt.completion_tokens = some none ∧
    ((attempt_openrouter_sync env_ex oracle_empty_ok doc_ex none).2.1).map
        Attempt.total_tokens = some none := by decide

/-- C5 amended: after each attempt-mutating operation of the core (the sync
orchestrator with or without its wrapper, and the batch per-record
processor), an attempt row with status completed has `completed_at` non-null
and `error` null, and a row with status failed has `error` non-null — given
the input row (if any) already satisfied this.  Token counts on a completed
row mirror the upstream `usage` object and may be null. -/
theorem attempt_status_invariant_amended (env : SyncEnv)
    (oracle : String → Except CallError OpenRouterResponse)
    (doc : Doc) (att : Option Attempt) (file_found : Bool) (image_path : String)
    (h : ∀ a, att = some a → attempt_invariant a) :
    (∀ a, (attempt_openrouter_sync env oracle doc att).2.1 = some a →
        attempt_invariant a) ∧
    (∀ a, (attempt_synchronous_processing env oracle doc att).2.1 = some a →
        attempt_invariant a) ∧
    attempt_invariant
      (process_single_alt_text env oracle file_found image_path doc att).2.1 := by
  have hsync : ∀ (d : Doc),
      ∀ a, (attempt_openrouter_sync env oracle d att).2.1 = some a →
        attempt_invariant a := by
    intro d a ha
    by_cases hcred : env.api_key = "" ∨ env.model_order = []
    · simp [attempt_openrouter_sync, hcred] at ha
      exact h a ha
    · rcases hcall : call_openrouter_with_model_order oracle env.model_order with e | r
      · cases e with
        | timeout msg =>
            simp [attempt_openrouter_sync, hcred, hcall] at ha
            subst ha
            exact ⟨by intro hc; simp at hc, by intro hf; simp at hf⟩
        | upstream msg =>
            simp [attempt_openrouter_sync, hcred, hcall] at ha
            subst ha
            exact ⟨by intro hc; simp at hc, by intro _; simp⟩
      · simp [attempt_openrouter_sync, hcred, hcall] at ha
        subst ha
        constructor
        · intro _
          exact ⟨by simp [persist_openrouter_alt_text],
                 by simp [persist_openrouter_alt_text]⟩
        · intro hf
          simp [persist_openrouter_alt_text] at hf
  refine ⟨hsync doc, ?_, ?_⟩
  · intro a ha
    exact hsync _ a ha
  · unfold process_single_alt_text
    by_cases hfound : file_found
    · simp only [hfound, if_true]
      rcases hcall : call_openrouter_with_model_order oracle env.model_order with e | r
      · simp only [hcall]
        exact ⟨by intro hc; simp at hc, by intro _; simp⟩
      · simp only [hcall]
        constructor
        · intro _
          exact ⟨by simp [persist_openrouter_alt_text],
                 by simp [persist_openrouter_alt_text]⟩
        · intro hf
          simp [persist_openrouter_alt_text] at hf
    · simp only [hfound, if_false]
      exact ⟨by intro hc; simp at hc, by intro _; simp⟩

/-- C5 witness: the amended invariant at a concrete batch run over the
sparse-success oracle. -/
theorem attempt_status_invariant_amended_witness :
    attempt_invariant
      (process_single_alt_text env_ex oracle_empty_ok true "path" doc_ex none).2.1 :=
  (attempt_status_invariant_amended env_ex oracle_empty_ok doc_ex none true "path"
    (fun _ ha => nomatch ha)).2.2


/-- Helper: saving a row whose key is absent from the table leaves the table
unchanged. -/
theorem update_doc_fresh (docs : List Doc) (d1 : Doc)
    (h : ∀ d ∈ docs, d.pk ≠ d1.pk) : update_doc docs d1 = docs := by
  induction docs with
  | nil => rfl
  | cons x xs ih =>
      have hx : x.pk ≠ d1.pk := h x (by simp)
      have hxs := ih (fun d hd => h d (by simp [hd]))
      simp only [update_doc] at hxs ⊢
      simp [hx, hxs]

/-- Helper: a lookup by a key that only the appended row carries finds that
row. -/
theorem find_pk_append_fresh (docs : List Doc) (d1 : Doc)
    (h : ∀ d ∈ docs, d.pk ≠ d1.pk) :
    (docs ++ [d1]).find? (fun x => x.pk == d1.pk) = some d1 := by
  induction docs with
  | nil => simp
  | cons x xs ih =>
      have hx : (x.pk == d1.pk) = false := by
        simp [h x (by simp)]
      simp only [List.cons_append, List.find?_cons, hx]
      exact ih (fun d hd => h d (by simp [hd]))

/-- C3 counterexample: an upload processed with an empty API key creates no
attempt row, but the new `ImageDocument` does not remain pending — the
orchestrator wrapper marks it processing before the credentials check. -/
theorem missing_credentials_cex :
    ((upload_image env_nokey oracle_timeout st_empty up_ex 1 none).1.docs.map
        Doc.processing_status = [Status.processing]) ∧
    Status.processing ≠ Status.pending ∧
    (upload_image env_nokey oracle_timeout st_empty up_ex 1 none).1.attempts = [] := by
  exact ⟨rfl, by decide, rfl⟩

/-- C3 amended: an upload processed while the API key is missing/empty or
the model order is empty creates no `OpenRouterAltText` row and never calls
the vision API, but the `ImageDocument` does not remain at pending: the
orchestrator wrapper marks it processing with `processing_started_at` set
before the credentials check skips the attempt.  The record is still
eligible for the batch retry, whose status filter also accepts processing. -/
theorem missing_credentials_skip_amended (env : SyncEnv)
    (oracle : String → Except CallError OpenRouterResponse)
    (st : AppState) (up : Upload) (new_pk : Nat)
    (hcred : env.api_key = "" ∨ env.model_order = [])
    (hnew : find_doc_by_checksum st up.checksum = none)
    (hpk : ∀ d ∈ st.docs, d.pk ≠ new_pk)
    (hatt : find_attempt st new_pk = none) :
    (upload_image env oracle st up new_pk none).1.attempts = st.attempts ∧
    (find_doc_by_pk (upload_image env oracle st up new_pk none).1 new_pk).map
        Doc.processing_status = some Status.processing ∧
    (find_doc_by_pk (upload_image env oracle st up new_pk none).1 new_pk).map
        Doc.processing_started_at = some (some env.now) ∧
    (find_doc_by_pk (upload_image env oracle st up new_pk none).1 new_pk).map
        status_eligible = some true := by
  have hres : upload_image env oracle st up new_pk none =
      ({ docs := st.docs ++ [skipped_new_doc env up new_pk]
         attempts := st.attempts },
       { doc_pk := new_pk, sync_attempted := true }) := by
    simp only [upload_image, hnew, upload_proceed]
    simp only [find_attempt] at hatt ⊢
    simp only [show (new_doc_for_upload env up new_pk).pk = new_pk from rfl]
    rw [hatt]
    simp only [attempt_synchronous_processing, attempt_openrouter_sync, if_pos hcred]
    simp only [update_attempts]
    have hdocs : update_doc
        (st.docs ++ [new_doc_for_upload env up new_pk])
        (skipped_new_doc env up new_pk) =
        st.docs ++ [skipped_new_doc env up new_pk] := by
      simp only [update_doc, List.map_append]
      congr 1
      · exact update_doc_fresh st.docs _ (fun d hd => hpk d hd)
      · simp [skipped_new_doc]
    rw [show update_doc (st.docs ++ [new_doc_for_upload env up new_pk])
        { new_doc_for_upload env up new_pk with
          processing_status := Status.processing
          processing_error := none
          processing_started_at := some env.now } =
        st.docs ++ [skipped_new_doc env up new_pk] from hdocs]
  rw [hres]
  have hfind := find_pk_append_fresh st.docs (skipped_new_doc env up new_pk)
    (fun d hd => hpk d hd)
  rw [show (skipped_new_doc env up new_pk).pk = new_pk from rfl] at hfind
  refine ⟨rfl, ?_, ?_, ?_⟩ <;>
  · simp only [find_doc_by_pk]
    rw [hfind]
    rfl

/-- C3 witness: the amended theorem at the empty database with the key-less
environment. -/
theorem missing_credentials_skip_amended_witness :
    (upload_image env_nokey oracle_timeout st_empty up_ex 1 none).1.attempts =
        st_empty.attempts ∧
    (find_doc_by_pk (upload_image env_nokey oracle_timeout st_empty up_ex 1 none).1 1).map
        Doc.processing_status = some Status.processing ∧
    (find_doc_by_pk (upload_image env_nokey oracle_timeout st_empty up_ex 1 none).1 1).map
        Doc.processing_started_at = some (some env_nokey.now) ∧
    (find_doc_by_pk (upload_image env_nokey oracle_timeout st_empty up_ex 1 none).1 1).map
        status_eligible = some true :=
  missing_credentials_skip_amended env_nokey oracle_timeout st_empty up_ex 1
    (Or.inl rfl) rfl (fun _ hd => nomatch hd) rfl

theorem mem_insert_by_uploaded_at (d x : Doc) (l : List Doc) :
    x ∈ insert_by_uploaded_at d l ↔ x = d ∨ x ∈ l := by
  induction l with
  | nil => simp [insert_by_uploaded_at]
  | cons y ys ih =>
      by_cases h : y.uploaded_at ≤ d.uploaded_at
      · simp only [insert_by_uploaded_at, if_pos h, List.mem_cons, ih]
        tauto
      · simp only [insert_by_uploaded_at, if_neg h, List.mem_cons]

theorem perm_insert_by_uploaded_at (d : Doc) (l : List Doc) :
    (insert_by_uploaded_at d l).Perm (d :: l) := by
  induction l with
  | nil => simp [insert_by_uploaded_at]
  | cons y ys ih =>
      by_cases h : y.uploaded_at ≤ d.uploaded_at
      · simp only [insert_by_uploaded_at, if_pos h]
        exact (ih.cons y).trans (List.Perm.swap d y ys)
      · simp [insert_by_uploaded_at, if_neg h]

theorem perm_order_by_uploaded_at (l : List Doc) :
    (order_by_uploaded_at l).Perm l := by
  induction l with
  | nil => exact List.Perm.refl []
  | cons d ds ih =>
      exact (perm_insert_by_uploaded_at d (order_by_uploaded_at ds)).trans (ih.cons d)

theorem pairwise_insert_by_uploaded_at (d : Doc) (l : List Doc)
    (h : l.Pairwise (fun a b => a.uploaded_at ≤ b.uploaded_at)) :
    (insert_by_uploaded_at d l).Pairwise (fun a b => a.uploaded_at ≤ b.uploaded_at) := by
  induction l with
  | nil => simp [insert_by_uploaded_at]
  | cons y ys ih =>
      rcases List.pairwise_cons.mp h with ⟨hy, hys⟩
      by_cases hc : y.uploaded_at ≤ d.uploaded_at
      · simp only [insert_by_uploaded_at, if_pos hc]
        refine List.pairwise_cons.mpr ⟨?_, ih hys⟩
        intro z hz
        rcases (mem_insert_by_uploaded_at d z ys).mp hz with rfl | hzys
        · exact hc
        · exact hy z hzys
      · simp only [insert_by_uploaded_at, if_neg hc]
        refine List.pairwise_cons.mpr ⟨?_, h⟩
        intro z hz
        have hdy : d.uploaded_at ≤ y.uploaded_at := Nat.le_of_lt (Nat.lt_of_not_le hc)
        rcases List.mem_cons.mp hz with rfl | hzys
        · exact hdy
        · exact Nat.le_trans hdy (hy z hzys)

theorem sorted_order_by_uploaded_at (l : List Doc) :
    sorted_by_uploaded_at (order_by_uploaded_at l) := by
  induction l with
  | nil => simp [order_by_uploaded_at, sorted_by_uploaded_at]
  | cons d ds ih => exact pairwise_insert_by_uploaded_at d _ ih

theorem dedupe_cap_sublist (n : Nat) :
    ∀ (l : List Doc) (seen : List Nat) (count : Nat),
      (dedupe_cap n seen count l).Sublist l := by
  intro l
  induction l with
  | nil => intro seen count; simp [dedupe_cap]
  | cons d ds ih =>
      intro seen count
      by_cases h : d.pk ∉ seen ∧ count < n
      · simp only [dedupe_cap, if_pos h]
        exact (ih _ _).cons₂ d
      · simp only [dedupe_cap, if_neg h]
        exact (ih _ _).cons d

theorem dedupe_cap_length (n : Nat) :
    ∀ (l : List Doc) (seen : List Nat) (count : Nat),
      (dedupe_cap n seen count l).length ≤ n - count := by
  intro l
  induction l with
  | nil => intro seen count; simp [dedupe_cap]
  | cons d ds ih =>
      intro seen count
      by_cases h : d.pk ∉ seen ∧ count < n
      · simp only [dedupe_cap, if_pos h, List.length_cons]
        have := ih (d.pk :: seen) (count + 1)
        omega
      · simp only [dedupe_cap, if_neg h]
        exact ih seen count

theorem dedupe_cap_nodup_pks (n : Nat) :
    ∀ (l : List Doc) (seen : List Nat) (count : Nat),
      ((dedupe_cap n seen count l).map Doc.pk).Nodup ∧
        ∀ d ∈ dedupe_cap n seen count l, d.pk ∉ seen := by
  intro l
  induction l with
  | nil => intro seen count; simp [dedupe_cap]
  | cons d ds ih =>
      intro seen count
      by_cases h : d.pk ∉ seen ∧ count < n
      · simp only [dedupe_cap, if_pos h]
        obtain ⟨hnd, hfresh⟩ := ih (d.pk :: seen) (count + 1)
        constructor
        · simp only [List.map_cons, List.nodup_cons]
          constructor
          · intro hmem
            rcases List.mem_map.mp hmem with ⟨z, hz, hzpk⟩
            exact (hfresh z hz) (by simp [hzpk])
          · exact hnd
        · intro z hz
          rcases List.mem_cons.mp hz with rfl | hzrest
          · exact h.1
          · intro hzseen
            exact (hfresh z hzrest) (by simp [hzseen])
      · simp only [dedupe_cap, if_neg h]
        exact ih seen count

theorem dedupe_cap_id (n : Nat) :
    ∀ (l : List Doc) (seen : List Nat) (count : Nat),
      (l.map Doc.pk).Nodup → (∀ d ∈ l, d.pk ∉ seen) →
      count + l.length ≤ n → dedupe_cap n seen count l = l := by
  intro l
  induction l with
  | nil => intro seen count _ _ _; rfl
  | cons d ds ih =>
      intro seen count hnd hfresh hlen
      simp only [List.length_cons] at hlen
      have hcond : d.pk ∉ seen ∧ count < n := ⟨hfresh d (by simp), by omega⟩
      simp only [dedupe_cap, if_pos hcond]
      congr 1
      simp only [List.map_cons, List.nodup_cons] at hnd
      refine ih (d.pk :: seen) (count + 1) hnd.2 ?_ (by omega)
      intro z hz
      simp only [List.mem_cons, not_or]
      constructor
      · intro heq
        exact hnd.1 (List.mem_map.mpr ⟨z, hz, heq⟩)
      · exact hfresh z (by simp [hz])

theorem length_filter_disjoint {α : Type} (p q : α → Bool)
    (h : ∀ a, (p a && q a) = false) :
    ∀ l : List α, (l.filter p).length + (l.filter q).length =
      (l.filter (fun a => p a || q a)).length := by
  intro l
  induction l with
  | nil => rfl
  | cons x xs ih =>
      have hx := h x
      cases hp : p x <;> cases hq : q x
      · simp [List.filter_cons, hp, hq]
        omega
      · simp [List.filter_cons, hp, hq]
        omega
      · simp [List.filter_cons, hp, hq]
        omega
      · rw [hp, hq] at hx
        exact absurd hx (by simp)

theorem bool_and_or_distrib (a b c : Bool) :
    ((a && b) || (a && c)) = (a && (b || c)) := by
  cases a <;> cases b <;> cases c <;> rfl

theorem no_attempt_retryable_exclusive (st : AppState) (d : Doc) :
    ((status_eligible d && no_attempt st d) &&
      (status_eligible d && retryable_attempt st d)) = false := by
  unfold no_attempt retryable_attempt
  cases hf : find_attempt st d.pk <;> simp

theorem e1_imp_eligible (st : AppState) (d : Doc)
    (h : (status_eligible d && no_attempt st d) = true) :
    eligible_for_retry st d = true := by
  rcases (Bool.and_eq_true _ _).mp h with ⟨h1, h2⟩
  simp [eligible_for_retry, h1, h2]

theorem e2_imp_eligible (st : AppState) (d : Doc)
    (h : (status_eligible d && retryable_attempt st d) = true) :
    eligible_for_retry st d = true := by
  rcases (Bool.and_eq_true _ _).mp h with ⟨h1, h2⟩
  simp [eligible_for_retry, h1, h2]

/-- C8 counterexample: with an older eligible document whose attempt failed
and a newer one with no attempt, the scanner lists the newer (no-attempt)
document first, so the result is not ordered oldest upload first; with
batch size 1 it returns only the newer document, skipping the oldest. -/
theorem find_pending_order_cex :
    (find_pending_alt_text st_scan 2).map Doc.uploaded_at = [2, 1] ∧
    ¬ sorted_by_uploaded_at (find_pending_alt_text st_scan 2) ∧
    (find_pending_alt_text st_scan 1).map Doc.pk = [2] := by decide

/-- C8 amended: `find_pending_alt_text` returns only records whose
processing status is pending/processing and that have no attempt or a
pending/failed attempt; it returns at most n of them with pairwise distinct
primary keys, and all eligible records whenever at most n are eligible
(given distinct keys in the table).  The ordering is oldest-first within
each of the two querysets — records with no attempt listed before records
with a pending/failed attempt — not globally oldest-first. -/
theorem find_pending_selection_amended (st : AppState) (n : Nat)
    (hnd : (st.docs.map Doc.pk).Nodup) :
    (∀ d ∈ find_pending_alt_text st n, eligible_for_retry st d = true) ∧
    (find_pending_alt_text st n).length ≤ n ∧
    ((find_pending_alt_text st n).map Doc.pk).Nodup ∧
    ((st.docs.filter (eligible_for_retry st)).length ≤ n →
      ∀ d ∈ st.docs, eligible_for_retry st d = true →
        d ∈ find_pending_alt_text st n) ∧
    (find_pending_alt_text st n).Sublist
      (docs_without_alt_text st n ++ docs_with_pending_alt_text st n) ∧
    sorted_by_uploaded_at (docs_without_alt_text st n) ∧
    sorted_by_uploaded_at (docs_with_pending_alt_text st n) := by
  have hsub : (find_pending_alt_text st n).Sublist
      (docs_without_alt_text st n ++ docs_with_pending_alt_text st n) :=
    dedupe_cap_sublist n _ [] 0
  have hsound : ∀ d ∈ find_pending_alt_text st n, eligible_for_retry st d = true := by
    intro d hd
    rcases List.mem_append.mp (hsub.subset hd) with hq1 | hq2
    · have hmo : d ∈ order_by_uploaded_at
          (st.docs.filter (fun d => status_eligible d && no_attempt st d)) :=
        (List.take_sublist _ _).subset hq1
      have hmf := (perm_order_by_uploaded_at _).mem_iff.mp hmo
      exact e1_imp_eligible st d (List.mem_filter.mp hmf).2
    · have hmo : d ∈ order_by_uploaded_at
          (st.docs.filter (fun d => status_eligible d && retryable_attempt st d)) :=
        (List.take_sublist _ _).subset hq2
      have hmf := (perm_order_by_uploaded_at _).mem_iff.mp hmo
      exact e2_imp_eligible st d (List.mem_filter.mp hmf).2
  have hlen : (find_pending_alt_text st n).length ≤ n := by
    have := dedupe_cap_length n
      (docs_without_alt_text st n ++ docs_with_pending_alt_text st n) [] 0
    simpa using this
  have hnodupf : ((find_pending_alt_text st n).map Doc.pk).Nodup :=
    (dedupe_cap_nodup_pks n
      (docs_without_alt_text st n ++ docs_with_pending_alt_text st n) [] 0).1
  have hsorted1 : sorted_by_uploaded_at (docs_without_alt_text st n) :=
    (sorted_order_by_uploaded_at _).sublist (List.take_sublist _ _)
  have hsorted2 : sorted_by_uploaded_at (docs_with_pending_alt_text st n) :=
    (sorted_order_by_uploaded_at _).sublist (List.take_sublist _ _)
  have hcomp : (st.docs.filter (eligible_for_retry st)).length ≤ n →
      ∀ d ∈ st.docs, eligible_for_retry st d = true →
        d ∈ find_pending_alt_text st n := by
    intro htot d hd held
    have hdisj : ∀ a, ((fun d => status_eligible d && no_attempt st d) a &&
        (fun d => status_eligible d && retryable_attempt st d) a) = false :=
      fun a => no_attempt_retryable_exclusive st a
    have hsum := length_filter_disjoint _ _ hdisj st.docs
    have hcongr : st.docs.filter
        (fun a => (status_eligible a && no_attempt st a) ||
          (status_eligible a && retryable_attempt st a)) =
        st.docs.filter (eligible_for_retry st) := by
      apply List.filter_congr
      intro a _
      rw [bool_and_or_distrib]
      rfl
    rw [hcongr] at hsum
    have hlo1 : (order_by_uploaded_at
        (st.docs.filter (fun d => status_eligible d && no_attempt st d))).length ≤ n := by
      rw [(perm_order_by_uploaded_at _).length_eq]
      omega
    have hlo2 : (order_by_uploaded_at
        (st.docs.filter (fun d => status_eligible d && retryable_attempt st d))).length ≤ n := by
      rw [(perm_order_by_uploaded_at _).length_eq]
      omega
    have hq1eq : docs_without_alt_text st n = order_by_uploaded_at
        (st.docs.filter (fun d => status_eligible d && no_attempt st d)) :=
      List.take_of_length_le hlo1
    have hq2eq : docs_with_pending_alt_text st n = order_by_uploaded_at
        (st.docs.filter (fun d => status_eligible d && retryable_attempt st d)) :=
      List.take_of_length_le hlo2
    have hlenq : (docs_without_alt_text st n ++
        docs_with_pending_alt_text st n).length ≤ n := by
      rw [List.length_append, hq1eq, hq2eq, (perm_order_by_uploaded_at _).length_eq,
        (perm_order_by_uploaded_at _).length_eq]
      omega
    have hnd1 : ((docs_without_alt_text st n).map Doc.pk).Nodup := by
      rw [hq1eq]
      refine ((perm_order_by_uploaded_at _).map Doc.pk).nodup_iff.mpr ?_
      exact ((List.filter_sublist _).map Doc.pk).nodup hnd
    have hnd2 : ((docs_with_pending_alt_text st n).map Doc.pk).Nodup := by
      rw [hq2eq]
      refine ((perm_order_by_uploaded_at _).map Doc.pk).nodup_iff.mpr ?_
      exact ((List.filter_sublist _).map Doc.pk).nodup hnd
    have hdisjpk : List.Disjoint ((docs_without_alt_text st n).map Doc.pk)
        ((docs_with_pending_alt_text st n).map Doc.pk) := by
      intro p hp1 hp2
      rcases List.mem_map.mp hp1 with ⟨a, ha, hap⟩
      rcases List.mem_map.mp hp2 with ⟨b, hb, hbp⟩
      rw [hq1eq] at ha
      rw [hq2eq] at hb
      have ha' := (perm_order_by_uploaded_at _).mem_iff.mp ha
      have hb' := (perm_order_by_uploaded_at _).mem_iff.mp hb
      have haD := (List.mem_filter.mp ha').1
      have hbD := (List.mem_filter.mp hb').1
      have hab : a = b :=
        List.inj_on_of_nodup_map hnd haD hbD (by rw [hap, hbp])
      subst hab
      have he1 := (List.mem_filter.mp ha').2
      have he2 := (List.mem_filter.mp hb').2
      have hx := no_attempt_retryable_exclusive st a
      rw [he1, he2] at hx
      exact Bool.noConfusion hx
    have hndapp : ((docs_without_alt_text st n ++
        docs_with_pending_alt_text st n).map Doc.pk).Nodup := by
      rw [List.map_append]
      exact List.nodup_append.mpr ⟨hnd1, hnd2, hdisjpk⟩
    have hid : find_pending_alt_text st n =
        docs_without_alt_text st n ++ docs_with_pending_alt_text st n :=
      dedupe_cap_id n _ [] 0 hndapp (by intro z _ hz; simp at hz)
        (by simpa using hlenq)
    rw [hid]
    have hsplit : (status_eligible d && no_attempt st d) = true ∨
        (status_eligible d && retryable_attempt st d) = true := by
      have hall : (status_eligible d &&
          (no_attempt st d || retryable_attempt st d)) = true := held
      rw [← bool_and_or_distrib] at hall
      exact (Bool.or_eq_true _ _).mp hall
    rcases hsplit with h1 | h2
    · apply List.mem_append_left
      rw [hq1eq]
      exact (perm_order_by_uploaded_at _).mem_iff.mpr (List.mem_filter.mpr ⟨hd, h1⟩)
    · apply List.mem_append_right
      rw [hq2eq]
      exact (perm_order_by_uploaded_at _).mem_iff.mpr (List.mem_filter.mpr ⟨hd, h2⟩)
  exact ⟨hsound, hlen, hnodupf, hcomp, hsub, hsorted1, hsorted2⟩

/-- C8 witness: the amended theorem at the two-document fixture. -/
theorem find_pending_selection_amended_witness :
    (find_pending_alt_text st_scan 2).length ≤ 2 ∧
    ((find_pending_alt_text st_scan 2).map Doc.pk).Nodup ∧
    sorted_by_uploaded_at (docs_without_alt_text st_scan 2) :=
  ⟨(find_pending_selection_amended st_scan 2 (by decide)).2.1,
   (find_pending_selection_amended st_scan 2 (by decide)).2.2.1,
   (find_pending_selection_amended st_scan 2 (by decide)).2.2.2.2.2.1⟩
